import Mathlib

/-!
Verification of the VulkanEngine asset-preparation scripts
(`scripts/mtl_creator.py`, `script.py`) against their specification.

The Python sources are shallowly embedded below.  Python strings are
modelled by Lean `String`, operating on their underlying `List Char`
with structural recursion so every definition evaluates by kernel
reduction.  A Python function that can raise an uncaught exception is
modelled with `Option` (`none` = the exception propagates).  The float
multiplication `float(x) * scale_factor` and its `repr` formatting are
abstracted as a parameter `st : String → Option String` (`none`
models `ValueError` from `float(x)`); the numeric scale factor that
the code compares against `1.0` is modelled exactly as a rational.
-/

/-! ## Models of the Python string primitives used by the scripts -/

/-- The whitespace characters recognised by Python's `str.split`/`str.strip`. -/
def wsChar (c : Char) : Bool :=
  c == ' ' || c == '\t' || c == '\n' || c == '\r' || c == Char.ofNat 11 || c == Char.ofNat 12

/-- Model of Python `s.startswith(p)`. -/
def pyStartsWith (s p : String) : Bool :=
  p.data.isPrefixOf s.data

/-- Model of Python `pat in s` (substring containment). -/
def infixOfChars (pat : List Char) : List Char → Bool
  | [] => pat.isPrefixOf []
  | c :: cs => pat.isPrefixOf (c :: cs) || infixOfChars pat cs

/-- Model of Python `pat in s` on strings. -/
def pyIn (pat s : String) : Bool :=
  infixOfChars pat.data s.data

/-- Model of Python `s.strip()`. -/
def pyStrip (s : String) : String :=
  String.mk (((s.data.dropWhile wsChar).reverse.dropWhile wsChar).reverse)

/-- Model of Python `s.lower()` (ASCII case folding). -/
def pyLower (s : String) : String :=
  String.mk (s.data.map Char.toLower)

/-- Model of Python `s.upper()` (ASCII case folding). -/
def pyUpper (s : String) : String :=
  String.mk (s.data.map Char.toUpper)

/-- Accumulator pass behind `pySplit`: splits at whitespace runs, drops empties. -/
def splitWsAux : List Char → List Char → List (List Char)
  | [], acc => if acc = [] then [] else [acc.reverse]
  | c :: cs, acc =>
    if wsChar c then
      if acc = [] then splitWsAux cs [] else acc.reverse :: splitWsAux cs []
    else splitWsAux cs (c :: acc)

/-- Model of Python `s.split()` (no separator: split on whitespace runs). -/
def pySplit (s : String) : List String :=
  (splitWsAux s.data []).map String.mk

/-- Splits a char list at the first occurrence of `sep`; `none` if absent. -/
def splitCharOnce (sep : Char) : List Char → Option (List Char × List Char)
  | [] => none
  | c :: cs =>
    if c = sep then some ([], cs)
    else (splitCharOnce sep cs).map (fun p => (c :: p.1, p.2))

/-- Model of Python `s.split(" ", 1)`. -/
def pySplitSpace1 (s : String) : List String :=
  match splitCharOnce ' ' s.data with
  | none => [s]
  | some (a, b) => [String.mk a, String.mk b]

/-- Model of Python `s.split(None, 1)`: leading whitespace dropped, first
whitespace run separates the head token from the remainder. -/
def pySplitNone1 (s : String) : List String :=
  let l := s.data.dropWhile wsChar
  if l = [] then []
  else
    let tok := l.takeWhile (fun c => !wsChar c)
    let rest := (l.dropWhile (fun c => !wsChar c)).dropWhile wsChar
    if rest = [] then [String.mk tok] else [String.mk tok, String.mk rest]

/-- Model of Python `s.split(".")` on char lists (keeps empty fields). -/
def splitDotChars : List Char → List (List Char)
  | [] => [[]]
  | c :: cs =>
    match splitDotChars cs with
    | s :: ss => if c = '.' then [] :: s :: ss else (c :: s) :: ss
    | [] => [[]]

/-- Python-dict lookup on an insertion-ordered association list. -/
def dictGet (d : List (String × String)) (k : String) : Option String :=
  (d.find? (fun p => p.1 == k)).map (fun p => p.2)

/-- Python-dict membership `k in d`. -/
def dictContainsB (d : List (String × String)) (k : String) : Bool :=
  (dictGet d k).isSome

/-- Python-dict assignment `d[k] = v`: updates in place, new keys append. -/
def dictInsert (d : List (String × String)) (k v : String) : List (String × String) :=
  if d.any (fun p => p.1 == k) then
    d.map (fun p => if p.1 == k then (k, v) else p)
  else d ++ [(k, v)]

/-- Python truthiness of an optional string (`None` and `""` are falsy). -/
def truthy : Option String → Bool
  | some s => s != ""
  | none => false

/-- Python `a or b` on optional strings: first truthy operand, else `b`. -/
def pyOr (a b : Option String) : Option String :=
  if truthy a then a else b

/-- Sequential effectful map over a list; `none` as soon as one element
fails, modelling a Python loop aborted by an exception. -/
def mapOpt (f : α → Option β) : List α → Option (List β)
  | [] => some []
  | a :: l =>
    match f a, mapOpt f l with
    | some b, some r => some (b :: r)
    | _, _ => none

/-! ## `scripts/mtl_creator.py` — `process_obj` -/

/-- `re.split(r"[.\s]", mat_name)[0].lower()` from `process_obj` line 96:
the part of the raw material name before the first dot or whitespace,
lowercased. -/
def simple_name (matName : String) : String :=
  pyLower (String.mk (matName.data.takeWhile (fun c => !(c == '.' || wsChar c))))

/-- `line.strip().split(" ", 1)[1]` from `process_obj` line 95; `none`
models the `IndexError` raised when no second field exists. -/
def mc_usemtl_name (line : String) : Option String :=
  match pySplitSpace1 (pyStrip line) with
  | _ :: n :: _ => some n
  | _ => none

/-- The parse loop of `process_obj` (lines 93–99) restricted to the
`usemtl` directives: collects the set `materials_in_obj` of
`(mat_name, simple_name)` pairs.  The Python `set` is represented by
its contents listed in first-insertion order; `none` models an
uncaught `IndexError`. -/
def mc_collect : List String → List (String × String) → Option (List (String × String))
  | [], acc => some acc
  | line :: rest, acc =>
    if pyStartsWith line "usemtl " then
      match mc_usemtl_name line with
      | some n =>
        let p := (n, simple_name n)
        mc_collect rest (if p ∈ acc then acc else acc ++ [p])
      | none => none
    else mc_collect rest acc

/-- `materials_in_obj` as computed by `process_obj` from the mesh lines. -/
def objMaterialPairs (lines : List String) : Option (List (String × String)) :=
  mc_collect lines []

/-- `has_mtllib = any(l.startswith("mtllib ") for l in lines)` (line 102). -/
def has_mtllib (lines : List String) : Bool :=
  lines.any (fun l => pyStartsWith l "mtllib ")

/-- `already_scaled = any("UT2_SCALED_TO_" in l for l in lines)` (line 103). -/
def already_scaled (lines : List String) : Bool :=
  lines.any (fun l => pyIn "UT2_SCALED_TO_" l)

/-- The line `f"mtllib {os.path.basename(export_mtl_path)}\n"` inserted
at line 133; `mb` is the material file's base name. -/
def mtllibLine (mb : String) : String :=
  "mtllib " ++ mb ++ "\n"

/-- The marker `f"# UT2_SCALED_TO_{target_unit.upper()} = {scale_factor}"`
plus newline (lines 138–139); `fs` abstracts the float's `repr`. -/
def markerLine (tu fs : String) : String :=
  "# UT2_SCALED_TO_" ++ pyUpper tu ++ " = " ++ fs ++ "\n"

/-- Lines 142–144: `p = line.split(); v = [float(x) * scale_factor for x
in p[1:4]]; f"v {v[0]} {v[1]} {v[2]}\n"`.  `st` abstracts
`x ↦ repr(float(x) * scale_factor)` with `none` for `ValueError`; a
result list shorter than three models the `IndexError` from `v[2]`. -/
def scaleVertexLine (st : String → Option String) (line : String) : Option String :=
  match mapOpt st (((pySplit line).drop 1).take 3) with
  | some [a, b, c] => some ("v " ++ (a ++ " " ++ b ++ " " ++ c ++ "\n"))
  | _ => none

/-- One iteration of the rewrite loop at lines 140–146. -/
def vRewrite (st : String → Option String) (line : String) : Option String :=
  if pyStartsWith line "v " then scaleVertexLine st line else some line

/-- Steps 3 and 4 of `process_obj` (lines 131–147): insert the `mtllib`
reference when absent, then, when no `mtllib` was present, no rescale
marker is present and the scale factor is not `1.0`, prepend the marker
and rewrite every vertex line.  This is the spec's
`RescaleEngine.apply`. -/
def rescaleApply (st : String → Option String) (sf : ℚ) (tu fs mb : String)
    (lines : List String) : Option (List String) :=
  let lines1 := if has_mtllib lines then lines else mtllibLine mb :: lines
  if has_mtllib lines = false ∧ already_scaled lines = false ∧ ¬ sf = 1 then
    (mapOpt (vRewrite st) lines1).map (fun ls => markerLine tu fs :: ls)
  else some lines1

/-- The missing-texture check of lines 117–128: `texture_map.get(simple_name)`. -/
def mc_blockLines (texMap : List (String × String)) (rel : String → String)
    (p : String × String) : List String :=
  ["newmtl " ++ p.1, "Ka 1.000 1.000 1.000", "Kd 1.000 1.000 1.000",
   "Ks 0.000 0.000 0.000", "d 1.0", "illum 2"]
  ++ (match dictGet texMap p.2 with
      | some t => ["map_Kd " ++ rel t]
      | none => [])
  ++ [""]

/-- The material-file lines written by the loop at lines 109–129, with
`order` the iteration order of the Python set `materials_in_obj` (an
unspecified enumeration of its elements) and `rel` abstracting
`os.path.relpath` with its absolute-path fallback. -/
def mc_mtlLines (texMap : List (String × String)) (rel : String → String)
    (order : List (String × String)) : List String :=
  (order.map (mc_blockLines texMap rel)).flatten

/-- `missing_textures` as accumulated by the same loop (line 128). -/
def mc_missing (texMap : List (String × String))
    (order : List (String × String)) : List String :=
  (order.filter (fun p => (dictGet texMap p.2).isNone)).map (fun p => p.1)

/-- Lines 153–156: the report file is written only when
`missing_textures` is non-empty, one name per line, in loop order. -/
def mc_missingReport (texMap : List (String × String))
    (order : List (String × String)) : Option (List String) :=
  if mc_missing texMap order = [] then none else some (mc_missing texMap order)

/-- A legal iteration order of a CPython set holding the pairs `pairs`:
any enumeration of the same elements (CPython specifies no order; with
hash randomisation it varies between runs). -/
def validSetOrder (pairs order : List (String × String)) : Prop :=
  order.Perm pairs

/-! ## `script.py` -/

/-- `normalize` of `script.py` (line 17): `name.split(".", 1)[0].lower()`. -/
def sc_normalize (name : String) : String :=
  pyLower (String.mk (name.data.takeWhile (fun c => c != '.')))

/-- `line.split(None, 1)[1].strip()` from the OBJ-parse loop (line 97);
`none` models the `IndexError` raised when no second field exists. -/
def sc_usemtl_name (line : String) : Option String :=
  match pySplitNone1 line with
  | _ :: n :: _ => some (pyStrip n)
  | _ => none

/-- The OBJ-parse loop of `script.py` (lines 92–97): detects `mtllib`
and collects the set `materials`; the set is represented by its
contents in first-insertion order; `none` models an uncaught
`IndexError`. -/
def sc_collect : List String → Bool → List String → Option (Bool × List String)
  | [], hm, mats => some (hm, mats)
  | line :: rest, hm, mats =>
    if pyStartsWith line "mtllib" then sc_collect rest true mats
    else if pyStartsWith line "usemtl" then
      match sc_usemtl_name line with
      | some n => sc_collect rest hm (if n ∈ mats then mats else mats ++ [n])
      | none => none
    else sc_collect rest hm mats

/-- `(has_mtllib, materials)` as computed by `script.py` from the mesh lines. -/
def scriptParseObj (lines : List String) : Option (Bool × List String) :=
  sc_collect lines false []

/-- `shader.get("Diffuse") or shader.get("DiffuseTexture")` (line 112). -/
def sc_indirect_diffuse (shader : List (String × String)) : Option String :=
  pyOr (dictGet shader "Diffuse") (dictGet shader "DiffuseTexture")

/-- `if x: x = x.lower()` applied to an optional value (lines 115–119). -/
def sc_lowered (o : Option String) : Option String :=
  if truthy o then o.map pyLower else o

/-- The `map_Kd` path chosen by the chain at lines 127–132: the lowered
indirect diffuse key when truthy and present in the index, else the
normalized base name when present, else `none` (the material goes on
the `missing` list). -/
def scriptDiffusePath (idx shader : List (String × String)) (base : String) :
    Option String :=
  let diffuse := sc_lowered (sc_indirect_diffuse shader)
  if truthy diffuse && dictContainsB idx (diffuse.getD "") then
    dictGet idx (diffuse.getD "")
  else if dictContainsB idx base then dictGet idx base
  else none

/-- The `map_d` path chosen at lines 134–135. -/
def scriptOpacityPath (idx shader : List (String × String)) : Option String :=
  let opacity := sc_lowered (dictGet shader "Opacity")
  if truthy opacity && dictContainsB idx (opacity.getD "") then
    dictGet idx (opacity.getD "")
  else none

/-- Strict lexicographic comparison of char lists by code point, the
order Python uses to compare strings. -/
def strLtChars : List Char → List Char → Bool
  | [], [] => false
  | [], _ :: _ => true
  | _ :: _, [] => false
  | a :: as, b :: bs =>
    if a.toNat < b.toNat then true
    else if b.toNat < a.toNat then false
    else strLtChars as bs

/-- The corresponding non-strict string order. -/
def pyStrLe (a b : String) : Bool :=
  !(strLtChars b.data a.data)

/-- The propositional form of the Python string order. -/
def strLe (a b : String) : Prop := pyStrLe a b = true

instance : DecidableRel strLe := fun a b => by
  unfold strLe
  infer_instance

/-- Sorting as performed by Python `sorted` on strings. -/
def sortStrings (l : List String) : List String :=
  List.insertionSort strLe l

/-- Sortedness in the Python string order. -/
def sortedStr (l : List String) : Prop :=
  List.Sorted strLe l

/-- The block the loop body at lines 121–137 writes for one material;
`rs` abstracts `resolve_shader` (a filesystem walk). -/
def scriptBlockLines (idx : List (String × String))
    (rs : String → List (String × String)) (mat : String) : List String :=
  let base := sc_normalize mat
  let shader := rs base
  ["newmtl " ++ mat, "Ka 1 1 1", "Kd 1 1 1", "Ks 0 0 0", "illum 2"]
  ++ (match scriptDiffusePath idx shader base with
      | some p => ["map_Kd " ++ p]
      | none => [])
  ++ (match scriptOpacityPath idx shader with
      | some p => ["map_d " ++ p]
      | none => [])
  ++ [""]

/-- The material-file lines written by `for mat in sorted(materials)`
(lines 107–137). -/
def scriptMtlLines (idx : List (String × String))
    (rs : String → List (String × String)) (mats : List String) : List String :=
  ((sortStrings mats).map (scriptBlockLines idx rs)).flatten

/-- `missing` as accumulated by the same loop (line 132). -/
def scriptMissing (idx : List (String × String))
    (rs : String → List (String × String)) (mats : List String) : List String :=
  (sortStrings mats).filter
    (fun m => (scriptDiffusePath idx (rs (sc_normalize m)) (sc_normalize m)).isNone)

/-- Lines 164–167: the report is written only when `missing` is
non-empty, as `sorted(missing)`, one name per line. -/
def scriptMissingReport (idx : List (String × String))
    (rs : String → List (String × String)) (mats : List String) :
    Option (List String) :=
  if scriptMissing idx rs mats = [] then none
  else some (sortStrings (scriptMissing idx rs mats))

/-- The `script.py` scale-and-mtllib step (lines 143–158): when no
`mtllib` line was seen the file is rewritten as the `mtllib` reference
followed by the vertex-rewritten lines; otherwise it is untouched. -/
def scriptScaleStep (st : String → Option String) (mb : String)
    (hasMtllib : Bool) (lines : List String) : Option (List String) :=
  if hasMtllib then some lines
  else (mapOpt (vRewrite st) lines).map (fun ls => mtllibLine mb :: ls)

/-! ## `script.py` — `parse_props_file` -/

/-- An apostrophe (kept out of string literals). -/
def sqc : Char := Char.ofNat 39

/-- The literal before the opening quote in the pattern
`Texture'([^']+)'`. -/
def texLit : String := "Texture" ++ String.mk [sqc]

/-- `re.search(r"Texture'([^']+)'", v)` (line 69): the first position
where the literal matches and is followed by a non-empty run of
non-quote characters and a closing quote yields that run. -/
def texSearch : List Char → Option (List Char)
  | [] => none
  | c :: cs =>
    if texLit.data.isPrefixOf (c :: cs) then
      let after := (c :: cs).drop 8
      let run := after.takeWhile (fun d => d != sqc)
      let rest := after.dropWhile (fun d => d != sqc)
      if run ≠ [] ∧ rest.head? = some sqc then some run else texSearch cs
    else texSearch cs

/-- `tex.group(1).split(".")[-1]` (line 71): the key stored by
`parse_props_file` for a matched texture reference. -/
def extractKey (s : String) : String :=
  String.mk ((splitDotChars s.data).getLastD [])

/-- `parse_props_file` (lines 63–72) on the file's lines: for every
line containing `=` and a quoted texture reference, store under the
stripped key the extracted texture key. -/
def parse_props_lines (ls : List String) : List (String × String) :=
  ls.foldl
    (fun data line =>
      if pyIn "=" line && pyIn texLit line then
        match splitCharOnce '=' line.data with
        | some (k, v) =>
          match texSearch v with
          | some ref => dictInsert data (pyStrip (String.mk k)) (extractKey (String.mk ref))
          | none => data
        | none => data
      else data)
    []

/-! ## Spec-side definitions used to state the claims -/

/-- Classifies a material-file line as a `newmtl` declaration and
extracts the declared name. -/
def newmtlName (l : String) : Option String :=
  if l.data.take 7 = ("newmtl " : String).data then some (String.mk (l.data.drop 7))
  else none

/-- Count of lines classified as Vertex (`line.startswith("v ")`). -/
def countV (lines : List String) : Nat :=
  lines.countP (fun l => pyStartsWith l "v ")

/-- Count of material-library-reference lines. -/
def countMtllib (lines : List String) : Nat :=
  lines.countP (fun l => pyStartsWith l "mtllib ")

/-- Count of lines carrying the rescale-marker sentinel. -/
def countMarker (lines : List String) : Nat :=
  lines.countP (fun l => pyIn "UT2_SCALED_TO_" l)

/-- The spec's resolution precedence for the diffuse binding, stated
from its words: (1) the indirect-resolved diffuse texture key if
present in the TextureIndex, (2) the material's own normalized key if
present, (3) unresolved.  The indirect-resolved key is the lowered
`Diffuse`/`DiffuseTexture` slot when it resolves to a non-empty name. -/
def indirectDiffuseKey (shader : List (String × String)) : Option String :=
  match sc_lowered (sc_indirect_diffuse shader) with
  | some s => if s = "" then none else some s
  | none => none

/-- Spec-side precedence chain for the diffuse texture path. -/
def specResolvePrecedence (idx shader : List (String × String)) (base : String) :
    Option String :=
  match indirectDiffuseKey shader with
  | some k =>
    if dictContainsB idx k then dictGet idx k
    else if dictContainsB idx base then dictGet idx base
    else none
  | none => if dictContainsB idx base then dictGet idx base else none

/-- The substring of `s` after its last `.` (all of `s` if it has none),
computed independently of `splitDotChars`. -/
def afterLastDot (s : String) : String :=
  String.mk ((s.data.reverse.takeWhile (fun c => c != '.')).reverse)

/-- The claim's literal reading of the extracted texture key: the
dot-separated segment immediately before the last `.` of the embedded
reference. -/
def segmentBeforeLastDot (s : String) : String :=
  String.mk (((splitDotChars s.data).dropLast).getLastD [])

/-- A concrete property-list line `Skins=Texture'Pack.Rock'`. -/
def propsLine : String :=
  "Skins=Texture" ++ String.mk [sqc] ++ "Pack.Rock" ++ String.mk [sqc]

/-! ## Properties of the string order -/

/-- Two characters with equal code points are equal. -/
theorem charEqOfToNat {a b : Char} (h : a.toNat = b.toNat) : a = b :=
  Char.ext (UInt32.toNat.inj h)

theorem strLtChars_asymm : ∀ {a b : List Char},
    strLtChars a b = true → strLtChars b a = false
  | a, [] => fun h1 => by cases a <;> simp [strLtChars] at h1
  | [], _ :: _ => fun _ => by simp [strLtChars]
  | a :: as, b :: bs => fun h1 => by
    simp only [strLtChars] at h1 ⊢
    by_cases hab : a.toNat < b.toNat
    · rw [if_neg (Nat.lt_asymm hab), if_pos hab]
    · by_cases hba : b.toNat < a.toNat
      · simp [hab, hba] at h1
      · have e : a = b :=
          charEqOfToNat (Nat.le_antisymm (Nat.le_of_not_lt hba) (Nat.le_of_not_lt hab))
        subst e
        simp only [hab, if_neg, if_false] at h1 ⊢
        exact strLtChars_asymm h1

theorem strLtChars_connex : ∀ {a b : List Char},
    strLtChars a b = false → strLtChars b a = false → a = b
  | [], [] => fun _ _ => rfl
  | [], _ :: _ => fun h1 _ => by simp [strLtChars] at h1
  | _ :: _, [] => fun _ h2 => by simp [strLtChars] at h2
  | a :: as, b :: bs => fun h1 h2 => by
    simp only [strLtChars] at h1 h2
    by_cases hab : a.toNat < b.toNat
    · simp [hab] at h1
    · by_cases hba : b.toNat < a.toNat
      · simp [hba] at h2
      · have e : a = b :=
          charEqOfToNat (Nat.le_antisymm (Nat.le_of_not_lt hba) (Nat.le_of_not_lt hab))
        subst e
        simp only [hab, if_neg, if_false] at h1 h2
        rw [strLtChars_connex h1 h2]

theorem strLtChars_trans : ∀ {a b c : List Char},
    strLtChars a b = true → strLtChars b c = true → strLtChars a c = true
  | a, [], _ => fun h1 _ => by cases a <;> simp [strLtChars] at h1
  | _, _ :: _, [] => fun _ h2 => by simp [strLtChars] at h2
  | [], _ :: _, _ :: _ => fun _ _ => by simp [strLtChars]
  | a :: as, b :: bs, c :: cs => fun h1 h2 => by
    simp only [strLtChars] at h1 h2 ⊢
    by_cases hab : a.toNat < b.toNat <;> by_cases hbc : b.toNat < c.toNat
    · simp [Nat.lt_trans hab hbc]
    · by_cases hcb : c.toNat < b.toNat
      · simp [hbc, hcb] at h2
      · have e : b = c :=
          charEqOfToNat (Nat.le_antisymm (Nat.le_of_not_lt hcb) (Nat.le_of_not_lt hbc))
        subst e
        simp [hab]
    · by_cases hba : b.toNat < a.toNat
      · simp [hab, hba] at h1
      · have e : a = b :=
          charEqOfToNat (Nat.le_antisymm (Nat.le_of_not_lt hba) (Nat.le_of_not_lt hab))
        subst e
        simp [hbc]
    · by_cases hba : b.toNat < a.toNat
      · simp [hab, hba] at h1
      · by_cases hcb : c.toNat < b.toNat
        · simp [hbc, hcb] at h2
        · have e1 : a = b :=
            charEqOfToNat (Nat.le_antisymm (Nat.le_of_not_lt hba) (Nat.le_of_not_lt hab))
          subst e1
          have e2 : a = c :=
            charEqOfToNat (Nat.le_antisymm (Nat.le_of_not_lt hcb) (Nat.le_of_not_lt hbc))
          subst e2
          simp only [Nat.lt_irrefl, if_neg, if_false] at h1 h2 ⊢
          exact strLtChars_trans h1 h2

instance : IsTotal String strLe :=
  ⟨fun a b => by
    unfold strLe pyStrLe
    rcases h : strLtChars b.data a.data with _ | _
    · left; simp
    · right; simp [strLtChars_asymm h]⟩

instance : IsTrans String strLe :=
  ⟨fun a b c hab hbc => by
    unfold strLe pyStrLe at *
    rw [Bool.not_eq_true'] at hab hbc ⊢
    rcases h1 : strLtChars a.data b.data with _ | _
    · rw [strLtChars_connex h1 hab]
      exact hbc
    · rcases h2 : strLtChars c.data a.data with _ | _
      · rfl
      · exact absurd (strLtChars_trans h2 h1) (by simp [hbc])⟩

instance : IsAntisymm String strLe :=
  ⟨fun a b hab hba => by
    unfold strLe pyStrLe at hab hba
    rw [Bool.not_eq_true'] at hab hba
    exact String.ext (strLtChars_connex hba hab)⟩

theorem sortStrings_sorted (l : List String) : sortedStr (sortStrings l) :=
  List.sorted_insertionSort strLe l

theorem sortStrings_perm (l : List String) : (sortStrings l).Perm l :=
  List.perm_insertionSort strLe l

theorem sortStrings_congr_perm {l m : List String} (h : l.Perm m) :
    sortStrings l = sortStrings m :=
  List.eq_of_perm_of_sorted
    ((sortStrings_perm l).trans (h.trans (sortStrings_perm m).symm))
    (sortStrings_sorted l) (sortStrings_sorted m)

theorem mem_sortStrings {l : List String} {a : String} :
    a ∈ sortStrings l ↔ a ∈ l :=
  (sortStrings_perm l).mem_iff

theorem nodup_sortStrings {l : List String} (h : l.Nodup) :
    (sortStrings l).Nodup :=
  ((sortStrings_perm l).nodup_iff).mpr h

/-! ## Properties of `mapOpt` and the vertex rewrite -/

theorem mapOpt_eq_some_iff {α β} {f : α → Option β} :
    ∀ {l : List α} {r : List β},
      mapOpt f l = some r ↔ List.Forall₂ (fun a b => f a = some b) l r
  | [], r => by
    simp only [mapOpt]
    constructor
    · intro h
      injection h with h
      subst h
      exact List.Forall₂.nil
    · intro h
      cases h
      rfl
  | a :: l, r => by
    constructor
    · intro h
      simp only [mapOpt] at h
      rcases hfa : f a with _ | b <;> rw [hfa] at h
      · rcases hml : mapOpt f l with _ | r2 <;> rw [hml] at h <;>
          exact absurd h (by simp)
      · rcases hml : mapOpt f l with _ | r2 <;> rw [hml] at h
        · exact absurd h (by simp)
        · have h3 : some (b :: r2) = some r := h
          injection h3 with h3
          subst h3
          exact List.Forall₂.cons hfa (mapOpt_eq_some_iff.mp hml)
    · intro h
      cases h with
      | cons hab htail =>
        simp only [mapOpt]
        rw [hab, mapOpt_eq_some_iff.mpr htail]

theorem mapOpt_eq_none_of_mem {α β} {f : α → Option β} :
    ∀ {l : List α} {a : α}, a ∈ l → f a = none → mapOpt f l = none
  | [], a, ha, _ => absurd ha (by simp)
  | x :: l, a, ha, hfa => by
    simp only [mapOpt]
    rcases List.mem_cons.mp ha with h | h
    · subst h
      rw [hfa]
    · rw [mapOpt_eq_none_of_mem h hfa]
      try rcases f x with _ | b <;> rfl

theorem mapOpt_cons_some {α β} {f : α → Option β} {a : α} {b : β} (l : List α)
    (hfa : f a = some b) :
    mapOpt f (a :: l) = (mapOpt f l).map (fun r => b :: r) := by
  simp only [mapOpt]
  rw [hfa]
  rcases mapOpt f l with _ | r <;> rfl

/-! ## Prefix and line-classification lemmas -/

theorem isPrefixOf_self_append : ∀ (l m : List Char), l.isPrefixOf (l ++ m) = true
  | [], m => by cases m <;> rfl
  | a :: l, m => by
    simp only [List.cons_append, List.isPrefixOf_cons₂_self]
    exact isPrefixOf_self_append l m

/-- A string whose char list extends `p`'s starts with `p`. -/
theorem pyStartsWith_of_data {s p : String} {t : List Char}
    (h : s.data = p.data ++ t) : pyStartsWith s p = true := by
  unfold pyStartsWith
  rw [h]
  exact isPrefixOf_self_append _ _

theorem pyStartsWith_append (p s : String) : pyStartsWith (p ++ s) p = true :=
  pyStartsWith_of_data (String.data_append p s)

/-- Strings whose first characters differ are not prefix-related. -/
theorem pyStartsWith_false_of_head {s p : String} {a b : Char} {as bs : List Char}
    (hs : s.data = a :: as) (hp : p.data = b :: bs) (hne : (b == a) = false) :
    pyStartsWith s p = false := by
  unfold pyStartsWith
  rw [hs, hp]
  show (b == a && bs.isPrefixOf as) = false
  rw [hne, Bool.false_and]

theorem mtllibLine_data (mb : String) :
    (mtllibLine mb).data = 'm' :: 't' :: 'l' :: 'l' :: 'i' :: 'b' :: ' ' :: (mb.data ++ ['\n']) := by
  unfold mtllibLine
  rw [String.data_append, String.data_append]
  rfl

theorem markerLine_data (tu fs : String) :
    (markerLine tu fs).data
      = '#' :: ((((" UT2_SCALED_TO_" : String).data ++ (pyUpper tu).data)
          ++ (" = " : String).data) ++ fs.data) ++ ("\n" : String).data := by
  unfold markerLine
  rw [String.data_append, String.data_append, String.data_append, String.data_append]
  rfl

theorem mtllibLine_not_v (mb : String) : pyStartsWith (mtllibLine mb) "v " = false :=
  pyStartsWith_false_of_head (mtllibLine_data mb) rfl rfl

theorem markerLine_not_v (tu fs : String) : pyStartsWith (markerLine tu fs) "v " = false :=
  pyStartsWith_false_of_head (markerLine_data tu fs) rfl rfl

theorem markerLine_not_mtllib (tu fs : String) :
    pyStartsWith (markerLine tu fs) "mtllib " = false :=
  pyStartsWith_false_of_head (markerLine_data tu fs) rfl rfl

theorem mtllibLine_is_mtllib (mb : String) :
    pyStartsWith (mtllibLine mb) "mtllib " = true := by
  apply pyStartsWith_of_data (t := mb.data ++ ['\n'])
  rw [mtllibLine_data mb]
  rfl

/-! ## Behaviour of the rescale engine -/

theorem vRewrite_not_v {st : String → Option String} {line : String}
    (h : pyStartsWith line "v " = false) : vRewrite st line = some line := by
  unfold vRewrite
  rw [h]
  rfl

theorem scaleVertexLine_shape {st : String → Option String} {line out : String}
    (h : scaleVertexLine st line = some out) :
    ∃ r : String, out = "v " ++ r := by
  unfold scaleVertexLine at h
  split at h
  · injection h with h
    exact ⟨_, h.symm⟩
  · exact absurd h (by simp)

theorem vRewrite_class {st : String → Option String} {a b : String}
    (h : vRewrite st a = some b) :
    pyStartsWith b "v " = pyStartsWith a "v " := by
  unfold vRewrite at h
  rcases hv : pyStartsWith a "v " with _ | _
  · rw [hv] at h
    injection h with h
    rw [← h]
    exact hv
  · rw [hv] at h
    obtain ⟨r, hr⟩ := scaleVertexLine_shape h
    rw [hr]
    exact pyStartsWith_append "v " r

theorem countV_eq_of_forall2 {st : String → Option String} :
    ∀ {l r : List String},
      List.Forall₂ (fun a b => vRewrite st a = some b) l r → countV r = countV l := by
  intro l r h
  induction h with
  | nil => rfl
  | cons hab _ ih =>
    unfold countV at ih ⊢
    rw [List.countP_cons, List.countP_cons, ih, vRewrite_class hab]

/-- When a `mtllib` reference is present, `process_obj` leaves the mesh
lines untouched. -/
theorem rescale_fixed_of_mtllib {st : String → Option String} {sf : ℚ}
    {tu fs mb : String} {lines : List String} (h : has_mtllib lines = true) :
    rescaleApply st sf tu fs mb lines = some lines := by
  unfold rescaleApply
  rw [if_pos h, if_neg]
  intro hc
  rw [h] at hc
  exact absurd hc.1 (by simp)

/-- When no `mtllib` reference is present but the scaling step is
skipped, `process_obj` only inserts the `mtllib` line. -/
theorem rescale_insert_only {st : String → Option String} {sf : ℚ}
    {tu fs mb : String} {lines : List String} (h1 : has_mtllib lines = false)
    (h2 : already_scaled lines = true ∨ sf = 1) :
    rescaleApply st sf tu fs mb lines = some (mtllibLine mb :: lines) := by
  have hgate : ¬ (has_mtllib lines = false ∧ already_scaled lines = false ∧ ¬ sf = 1) := by
    intro hc
    rcases h2 with h2 | h2
    · rw [h2] at hc
      exact absurd hc.2.1 (by simp)
    · exact hc.2.2 h2
  unfold rescaleApply
  rw [if_neg hgate, if_neg (show ¬ (has_mtllib lines = true) by rw [h1]; simp)]

/-- When no `mtllib` reference and no marker are present and the factor
is not `1.0`, `process_obj` runs the scaling loop over the lines with
the `mtllib` reference already inserted. -/
theorem rescale_gate {st : String → Option String} {sf : ℚ}
    {tu fs mb : String} {lines : List String} (h1 : has_mtllib lines = false)
    (h2 : already_scaled lines = false) (h3 : ¬ sf = 1) :
    rescaleApply st sf tu fs mb lines
      = (mapOpt (vRewrite st) (mtllibLine mb :: lines)).map
          (fun ls => markerLine tu fs :: ls) := by
  have hgate : has_mtllib lines = false ∧ already_scaled lines = false ∧ ¬ sf = 1 :=
    ⟨h1, h2, h3⟩
  unfold rescaleApply
  rw [if_pos hgate, if_neg (show ¬ (has_mtllib lines = true) by rw [h1]; simp)]

/-- Every successful run of the engine leaves a `mtllib` reference in
the output. -/
theorem rescale_has_mtllib_out {st : String → Option String} {sf : ℚ}
    {tu fs mb : String} {lines out : List String}
    (h : rescaleApply st sf tu fs mb lines = some out) :
    has_mtllib out = true := by
  rcases hm : has_mtllib lines with _ | _
  · rcases hsc : already_scaled lines with _ | _
    · by_cases hsf : sf = 1
      · rw [rescale_insert_only hm (Or.inr hsf)] at h
        injection h with h
        subst h
        unfold has_mtllib
        simp [mtllibLine_is_mtllib]
      · rw [rescale_gate hm hsc hsf] at h
        rcases hmap : mapOpt (vRewrite st) (mtllibLine mb :: lines) with _ | ls
        · rw [hmap] at h
          exact absurd h (by simp)
        · rw [hmap] at h
          injection h with h
          subst h
          rw [mapOpt_cons_some lines (vRewrite_not_v (mtllibLine_not_v mb))] at hmap
          rcases hmap2 : mapOpt (vRewrite st) lines with _ | rest
          · rw [hmap2] at hmap
            exact absurd hmap (by simp)
          · rw [hmap2] at hmap
            injection hmap with hmap
            subst hmap
            unfold has_mtllib
            simp [mtllibLine_is_mtllib]
    · rw [rescale_insert_only hm (Or.inl hsc)] at h
      injection h with h
      subst h
      unfold has_mtllib
      simp [mtllibLine_is_mtllib]
  · rw [rescale_fixed_of_mtllib hm] at h
    injection h with h
    subst h
    exact hm

/-- Structure of every successful engine run: unchanged, `mtllib`
prepended, or marker plus `mtllib` plus a 1:1 vertex rewrite. -/
theorem rescale_cases {st : String → Option String} {sf : ℚ}
    {tu fs mb : String} {lines out : List String}
    (h : rescaleApply st sf tu fs mb lines = some out) :
    out = lines ∨ out = mtllibLine mb :: lines ∨
      ∃ rest, out = markerLine tu fs :: mtllibLine mb :: rest ∧
        List.Forall₂ (fun a b => vRewrite st a = some b) lines rest := by
  rcases hm : has_mtllib lines with _ | _
  · rcases hsc : already_scaled lines with _ | _
    · by_cases hsf : sf = 1
      · rw [rescale_insert_only hm (Or.inr hsf)] at h
        injection h with h
        exact Or.inr (Or.inl h.symm)
      · rw [rescale_gate hm hsc hsf] at h
        rcases hmap : mapOpt (vRewrite st) (mtllibLine mb :: lines) with _ | ls <;>
            rw [hmap] at h
        · exact absurd h (by simp)
        · injection h with h
          rw [mapOpt_cons_some lines (vRewrite_not_v (mtllibLine_not_v mb))] at hmap
          rcases hmap2 : mapOpt (vRewrite st) lines with _ | rest <;> rw [hmap2] at hmap
          · exact absurd hmap (by simp)
          · injection hmap with hmap
            refine Or.inr (Or.inr ⟨rest, ?_, mapOpt_eq_some_iff.mp hmap2⟩)
            rw [← h, ← hmap]
    · rw [rescale_insert_only hm (Or.inl hsc)] at h
      injection h with h
      exact Or.inr (Or.inl h.symm)
  · rw [rescale_fixed_of_mtllib hm] at h
    injection h with h
    exact Or.inl h.symm

/-- A `v ` line with fewer than three fields after the keyword makes
the rewrite raise (the `IndexError` from `v[2]`). -/
theorem scaleVertexLine_short {st : String → Option String} {line : String}
    (h : (pySplit line).length < 4) : scaleVertexLine st line = none := by
  unfold scaleVertexLine
  rcases hm : mapOpt st (((pySplit line).drop 1).take 3) with _ | vs
  · rfl
  · have hlen := (mapOpt_eq_some_iff.mp hm).length_eq
    rw [List.length_take, List.length_drop] at hlen
    rcases vs with _ | ⟨a, _ | ⟨b, _ | ⟨c, rest⟩⟩⟩
    · rfl
    · rfl
    · rfl
    · exfalso
      simp only [List.length_cons] at hlen
      omega

example : pySplit "v 1 2 3\n" = ["v", "1", "2", "3"] := by decide
example : objMaterialPairs ["usemtl B\n", "usemtl A\n"]
    = some [("B", "b"), ("A", "a")] := by decide
example : mc_usemtl_name "usemtl \n" = none := by decide
example : has_mtllib ["mtllib r.mtl\n"] = true := by decide
example : already_scaled ["# UT2_SCALED_TO_METERS = 0.01905\n"] = true := by decide
example : rescaleApply (fun s => some s) 2 "meters" "2" "m.mtl" ["v 1 2 3\n"]
    = some ["# UT2_SCALED_TO_METERS = 2\n", "mtllib m.mtl\n", "v 1 2 3\n"] := by decide
example : rescaleApply (fun s => some s) 1 "uu" "1.0" "m.mtl" ["v 1 2 3\n"]
    = some ["mtllib m.mtl\n", "v 1 2 3\n"] := by decide
example : rescaleApply (fun s => some s) 2 "meters" "2" "m.mtl" ["v 1 2\n"] = none := by decide
example : scriptParseObj ["mtllib r.mtl\n", "usemtl A\n", "usemtl A\n"]
    = some (true, ["A"]) := by decide
example : scriptParseObj ["usemtl\n"] = none := by decide
example : sc_normalize "Rock_01.skin" = "rock_01" := by decide
example : sortStrings ["B", "A"] = ["A", "B"] := by decide
example : scriptDiffusePath [("rock", "t/rock.png")] [("Diffuse", "ROCK")] "base"
    = some "t/rock.png" := by decide
example : scriptDiffusePath [("base", "t/b.png")] [("Diffuse", "rock")] "base"
    = some "t/b.png" := by decide
example : scriptDiffusePath [("base", "t/b.png")] [] "base" = some "t/b.png" := by decide
example : scriptDiffusePath [] [("Diffuse", "rock")] "base" = none := by decide
example : texSearch propsLine.data = some ("Pack.Rock" : String).data := by decide
example : parse_props_lines [propsLine] = [("Skins", "Rock")] := by decide
example : extractKey "Pack.Rock" = "Rock" := by decide
example : segmentBeforeLastDot "Pack.Rock" = "Pack" := by decide
example : afterLastDot "Pack.Rock" = "Rock" := by decide
example : newmtlName "newmtl AB" = some "AB" := by decide
example : mc_mtlLines [] (fun p => p) [("B", "b"), ("A", "a")]
    = ["newmtl B", "Ka 1.000 1.000 1.000", "Kd 1.000 1.000 1.000",
       "Ks 0.000 0.000 0.000", "d 1.0", "illum 2", "",
       "newmtl A", "Ka 1.000 1.000 1.000", "Kd 1.000 1.000 1.000",
       "Ks 0.000 0.000 0.000", "d 1.0", "illum 2", ""] := by decide
example : mc_missingReport [] [("B", "b"), ("A", "a")] = some ["B", "A"] := by decide
example : scriptMissingReport [] (fun _ => []) ["B", "A"] = some ["A", "B"] := by decide
example : scriptScaleStep (fun s => some s) "r.mtl" false ["v 1 2 3\n", "f 1 2 3\n"]
    = some ["mtllib r.mtl\n", "v 1 2 3\n", "f 1 2 3\n"] := by decide

/-! ## Claim theorems: the rescale engine (C1, C2, C5, C6, C7) -/

/-- C1: counterexample.  A document carrying only the rescale marker
(no `mtllib` line) is NOT returned unchanged: `process_obj` still
inserts the material-library-reference line, so "no mutation when
`hasMaterialLibRef` OR a rescale marker is present" is false. -/
theorem C1_counterexample :
    already_scaled ["# UT2_SCALED_TO_METERS = 0.01905\n"] = true ∧
    has_mtllib ["# UT2_SCALED_TO_METERS = 0.01905\n"] = false ∧
    rescaleApply (fun s => some s) 2 "meters" "0.01905" "rankin.mtl"
        ["# UT2_SCALED_TO_METERS = 0.01905\n"]
      = some ["mtllib rankin.mtl\n", "# UT2_SCALED_TO_METERS = 0.01905\n"] ∧
    ¬ (["mtllib rankin.mtl\n", "# UT2_SCALED_TO_METERS = 0.01905\n"]
        = ["# UT2_SCALED_TO_METERS = 0.01905\n"]) := by
  refine ⟨by decide, by decide, by decide, by decide⟩

/-- C1 (amended): if the document already has a material-library
reference, `apply` performs no mutation and returns it unchanged; if
only the rescale marker is present, no vertex coordinate is multiplied
and no marker is inserted, but the material-library-reference line is
still inserted at the top. -/
theorem C1_idempotence_guards (st : String → Option String) (sf : ℚ)
    (tu fs mb : String) (lines : List String) :
    (has_mtllib lines = true → rescaleApply st sf tu fs mb lines = some lines) ∧
    (has_mtllib lines = false → already_scaled lines = true →
      rescaleApply st sf tu fs mb lines = some (mtllibLine mb :: lines)) :=
  ⟨fun h => rescale_fixed_of_mtllib h,
   fun h1 h2 => rescale_insert_only h1 (Or.inl h2)⟩

theorem C1_idempotence_guards_witness :
    rescaleApply (fun s => some s) 2 "meters" "2" "m.mtl" ["mtllib m.mtl\n", "v 1 2 3\n"]
      = some ["mtllib m.mtl\n", "v 1 2 3\n"] ∧
    rescaleApply (fun s => some s) 2 "meters" "2" "m.mtl" ["# UT2_SCALED_TO_METERS = 2\n"]
      = some (mtllibLine "m.mtl" :: ["# UT2_SCALED_TO_METERS = 2\n"]) :=
  ⟨(C1_idempotence_guards (fun s => some s) 2 "meters" "2" "m.mtl"
      ["mtllib m.mtl\n", "v 1 2 3\n"]).1 (by decide),
   (C1_idempotence_guards (fun s => some s) 2 "meters" "2" "m.mtl"
      ["# UT2_SCALED_TO_METERS = 2\n"]).2 (by decide) (by decide)⟩

/-- C2: applying the rescale engine twice equals applying it once
(`apply (apply D s) s = apply D s`), and a document that already
contains a material-library-reference line is returned unchanged (zero
vertex multiplications, no duplicate marker inserted). -/
theorem C2_idempotent (st : String → Option String) (sf : ℚ)
    (tu fs mb : String) (lines : List String) :
    (rescaleApply st sf tu fs mb lines).bind (rescaleApply st sf tu fs mb)
        = rescaleApply st sf tu fs mb lines ∧
    (has_mtllib lines = true → rescaleApply st sf tu fs mb lines = some lines) := by
  constructor
  · rcases h : rescaleApply st sf tu fs mb lines with _ | out
    · rfl
    · exact rescale_fixed_of_mtllib (rescale_has_mtllib_out h)
  · exact fun h => rescale_fixed_of_mtllib h

theorem C2_idempotent_witness :
    ((rescaleApply (fun s => some s) 2 "meters" "2" "m.mtl" ["v 1 2 3\n"]).bind
        (rescaleApply (fun s => some s) 2 "meters" "2" "m.mtl")
      = rescaleApply (fun s => some s) 2 "meters" "2" "m.mtl" ["v 1 2 3\n"]) ∧
    rescaleApply (fun s => some s) 2 "meters" "2" "m.mtl" ["mtllib m.mtl\n"]
      = some ["mtllib m.mtl\n"] :=
  ⟨(C2_idempotent (fun s => some s) 2 "meters" "2" "m.mtl" ["v 1 2 3\n"]).1,
   (C2_idempotent (fun s => some s) 2 "meters" "2" "m.mtl" ["mtllib m.mtl\n"]).2 (by decide)⟩

/-- C5: counterexample.  With scale factor `1.0` the whole scaling step
(lines 136–147) is skipped, so the rescale-marker line is NOT inserted:
the output contains the `mtllib` line but zero marker lines, while the
claim demands the marker be inserted exactly once. -/
theorem C5_counterexample :
    rescaleApply (fun s => some s) 1 "uu" "1.0" "m.mtl" ["v 1 2 3\n"]
      = some ["mtllib m.mtl\n", "v 1 2 3\n"] ∧
    countMarker ["mtllib m.mtl\n", "v 1 2 3\n"] = 0 := by
  refine ⟨by decide, by decide⟩

/-- C5 (amended): with scale factor `1.0` (and no pre-existing `mtllib`
line or marker), `apply` multiplies no vertex coordinate and inserts
the material-library-reference line exactly once, but does not insert
the rescale-marker line: the output is exactly the input with the
`mtllib` line prepended. -/
theorem C5_unit_factor (st : String → Option String) (tu fs mb : String)
    (lines : List String) (h1 : has_mtllib lines = false)
    (h2 : already_scaled lines = false) :
    rescaleApply st 1 tu fs mb lines = some (mtllibLine mb :: lines) ∧
    countMtllib (mtllibLine mb :: lines) = 1 := by
  refine ⟨rescale_insert_only h1 (Or.inr rfl), ?_⟩
  have h0 : List.countP (fun l => pyStartsWith l "mtllib ") lines = 0 := by
    rw [List.countP_eq_zero]
    intro a ha
    unfold has_mtllib at h1
    rw [List.any_eq_false] at h1
    simp [h1 a ha]
  unfold countMtllib
  rw [List.countP_cons, h0]
  simp [mtllibLine_is_mtllib]

theorem C5_unit_factor_witness :
    rescaleApply (fun s => some s) 1 "uu" "1.0" "m.mtl" ["v 1 2 3\n"]
      = some (mtllibLine "m.mtl" :: ["v 1 2 3\n"]) ∧
    countMtllib (mtllibLine "m.mtl" :: ["v 1 2 3\n"]) = 1 :=
  C5_unit_factor (fun s => some s) "uu" "1.0" "m.mtl" ["v 1 2 3\n"]
    (by decide) (by decide)

/-- C6: counterexample.  When the scaling step runs, TWO lines are
inserted at the top (the rescale marker and the `mtllib` reference), so
the output has length input + 2; the claim's "a single inserted
library-reference/marker line" (length input + 1) is false. -/
theorem C6_counterexample :
    (rescaleApply (fun s => some s) 2 "meters" "2" "m.mtl" ["v 1 2 3\n"]).map List.length
      = some 3 ∧ ¬ (3 = 1 + 1) := by
  refine ⟨by decide, by decide⟩

/-- C6 (amended): whenever `apply` succeeds, the number of lines
classified as Vertex is preserved, and the output differs from the
input only by a 1:1 rewrite of vertex lines plus inserted line(s) at
the top: nothing (document unchanged), the library-reference line
alone, or the rescale-marker line followed by the library-reference
line. -/
theorem C6_vertex_count_structure (st : String → Option String) (sf : ℚ)
    (tu fs mb : String) (lines out : List String)
    (h : rescaleApply st sf tu fs mb lines = some out) :
    countV out = countV lines ∧
    (out = lines ∨ out = mtllibLine mb :: lines ∨
      ∃ rest, out = markerLine tu fs :: mtllibLine mb :: rest ∧
        List.Forall₂ (fun a b => vRewrite st a = some b) lines rest) := by
  refine ⟨?_, rescale_cases h⟩
  rcases rescale_cases h with h1 | h1 | ⟨rest, h1, h2⟩
  · rw [h1]
  · rw [h1]
    unfold countV
    rw [List.countP_cons]
    simp [mtllibLine_not_v]
  · rw [h1]
    have hc := countV_eq_of_forall2 h2
    unfold countV at hc ⊢
    rw [List.countP_cons, List.countP_cons, hc]
    simp [mtllibLine_not_v, markerLine_not_v]

theorem C6_vertex_count_structure_witness :
    countV ["# UT2_SCALED_TO_METERS = 2\n", "mtllib m.mtl\n", "v 1 2 3\n"]
        = countV ["v 1 2 3\n"] ∧
    (["# UT2_SCALED_TO_METERS = 2\n", "mtllib m.mtl\n", "v 1 2 3\n"] = ["v 1 2 3\n"] ∨
      ["# UT2_SCALED_TO_METERS = 2\n", "mtllib m.mtl\n", "v 1 2 3\n"]
        = mtllibLine "m.mtl" :: ["v 1 2 3\n"] ∨
      ∃ rest, ["# UT2_SCALED_TO_METERS = 2\n", "mtllib m.mtl\n", "v 1 2 3\n"]
          = markerLine "meters" "2" :: mtllibLine "m.mtl" :: rest ∧
        List.Forall₂ (fun a b => vRewrite (fun s => some s) a = some b)
          ["v 1 2 3\n"] rest) :=
  C6_vertex_count_structure (fun s => some s) 2 "meters" "2" "m.mtl" ["v 1 2 3\n"]
    ["# UT2_SCALED_TO_METERS = 2\n", "mtllib m.mtl\n", "v 1 2 3\n"] (by decide)

/-- C7: counterexample.  An input containing the vertex line `v 1 2`
(fewer than three numeric fields) makes processing abort with an
uncaught `IndexError` (modelled by `none`) in both scripts, so "the
offending line is skipped or passed through, processing does not
abort" is false. -/
theorem C7_counterexample :
    rescaleApply (fun s => some s) 2 "meters" "2" "m.mtl" ["v 1 2\n"] = none ∧
    scriptScaleStep (fun s => some s) "r.mtl" false ["v 1 2\n"] = none := by
  refine ⟨by decide, by decide⟩

/-- C7 (amended): a Vertex line with fewer than three fields ABORTS
processing when the scaling step runs (no `mtllib`, no marker, factor
distinct from 1.0) — both engines return `none`, the uncaught
`IndexError` — and such lines pass through unchanged only when the
scaling step is skipped (here: when a `mtllib` line is present). -/
theorem C7_malformed_vertex_aborts (st : String → Option String) (sf : ℚ)
    (tu fs mb : String) (lines : List String) (bad : String)
    (hmem : bad ∈ lines) (hv : pyStartsWith bad "v " = true)
    (hshort : (pySplit bad).length < 4)
    (h1 : has_mtllib lines = false) (h2 : already_scaled lines = false)
    (h3 : ¬ sf = 1) :
    rescaleApply st sf tu fs mb lines = none ∧
    scriptScaleStep st mb false lines = none ∧
    scriptScaleStep st mb true lines = some lines := by
  have hbad : vRewrite st bad = none := by
    unfold vRewrite
    rw [hv, if_pos rfl]
    exact scaleVertexLine_short hshort
  have hmap : mapOpt (vRewrite st) lines = none := mapOpt_eq_none_of_mem hmem hbad
  refine ⟨?_, ?_, rfl⟩
  · rw [rescale_gate h1 h2 h3,
      mapOpt_cons_some lines (vRewrite_not_v (mtllibLine_not_v mb)), hmap]
    rfl
  · show (mapOpt (vRewrite st) lines).map (fun ls => mtllibLine mb :: ls) = none
    rw [hmap]
    rfl

theorem C7_malformed_vertex_aborts_witness :
    rescaleApply (fun s => some s) 2 "meters" "2" "m.mtl" ["v 1 2\n"] = none ∧
    scriptScaleStep (fun s => some s) "m.mtl" false ["v 1 2\n"] = none ∧
    scriptScaleStep (fun s => some s) "m.mtl" true ["v 1 2\n"] = some ["v 1 2\n"] :=
  C7_malformed_vertex_aborts (fun s => some s) 2 "meters" "2" "m.mtl" ["v 1 2\n"]
    "v 1 2\n" (by decide) (by decide) (by decide) (by decide) (by decide) (by decide)

/-! ## Claim theorems: parsing (C10) and resolution precedence (C8) -/

/-- C10: a material-use directive with no name token after it raises an
uncaught `IndexError` in both parsers (modelled by `none`): in
`mtl_creator.py` the line `usemtl ` (trailing space) and in `script.py`
the bare line `usemtl`; parsing is partial at the public interface. -/
theorem C10_bare_usemtl_raises :
    objMaterialPairs ["usemtl \n"] = none ∧ scriptParseObj ["usemtl\n"] = none := by
  refine ⟨by decide, by decide⟩

/-- C8: the diffuse texture path of a resolved binding follows the
spec's precedence exactly: (1) the indirect-resolved diffuse texture
key when it is present in the texture index, else (2) the material's
own normalized key when present, else (3) unresolved. -/
theorem C8_resolution_precedence (idx shader : List (String × String)) (base : String) :
    scriptDiffusePath idx shader base = specResolvePrecedence idx shader base := by
  unfold scriptDiffusePath specResolvePrecedence indirectDiffuseKey
  rcases hd : sc_lowered (sc_indirect_diffuse shader) with _ | s
  · simp [truthy]
  · by_cases hs : s = "" <;> simp [truthy, hs]

/-! ## Lemmas for the material-file writers (C3, C4) -/

theorem newmtlName_newmtl (m : String) : newmtlName ("newmtl " ++ m) = some m := by
  unfold newmtlName
  rw [String.data_append,
    show (7 : Nat) = ("newmtl " : String).data.length from rfl,
    List.take_left, List.drop_left, if_pos rfl]

/-- A line whose first character is `m` is not a `newmtl` declaration. -/
theorem newmtlName_head_m {s : String} {cs : List Char}
    (hs : s.data = 'm' :: cs) : newmtlName s = none := by
  unfold newmtlName
  rw [hs, if_neg]
  intro hEq
  rw [show (7 : Nat) = 6 + 1 from rfl, List.take_succ_cons] at hEq
  injection hEq with h1 _
  exact absurd h1 (by decide)

theorem newmtlName_mapKd (v : String) : newmtlName ("map_Kd " ++ v) = none :=
  newmtlName_head_m (by rw [String.data_append]; rfl)

theorem newmtlName_mapD (v : String) : newmtlName ("map_d " ++ v) = none :=
  newmtlName_head_m (by rw [String.data_append]; rfl)

theorem newmtlName_Ka : newmtlName "Ka 1 1 1" = none := by decide
theorem newmtlName_Kd : newmtlName "Kd 1 1 1" = none := by decide
theorem newmtlName_Ks : newmtlName "Ks 0 0 0" = none := by decide
theorem newmtlName_illum : newmtlName "illum 2" = none := by decide
theorem newmtlName_empty : newmtlName "" = none := by decide
theorem newmtlName_Ka3 : newmtlName "Ka 1.000 1.000 1.000" = none := by decide
theorem newmtlName_Kd3 : newmtlName "Kd 1.000 1.000 1.000" = none := by decide
theorem newmtlName_Ks3 : newmtlName "Ks 0.000 0.000 0.000" = none := by decide
theorem newmtlName_d : newmtlName "d 1.0" = none := by decide

/-- Each block the `script.py` writer emits declares exactly its own
material. -/
theorem filterMap_newmtl_scriptBlock (idx : List (String × String))
    (rs : String → List (String × String)) (m : String) :
    (scriptBlockLines idx rs m).filterMap newmtlName = [m] := by
  unfold scriptBlockLines
  rcases hd : scriptDiffusePath idx (rs (sc_normalize m)) (sc_normalize m) with _ | p <;>
    rcases ho : scriptOpacityPath idx (rs (sc_normalize m)) with _ | q <;>
      simp [hd, ho, List.filterMap_append, newmtlName_newmtl, newmtlName_mapKd,
        newmtlName_mapD, newmtlName_Ka, newmtlName_Kd, newmtlName_Ks,
        newmtlName_illum, newmtlName_empty]

/-- Each block the `mtl_creator.py` writer emits declares exactly its
own material. -/
theorem filterMap_newmtl_mcBlock (texMap : List (String × String))
    (rel : String → String) (p : String × String) :
    (mc_blockLines texMap rel p).filterMap newmtlName = [p.1] := by
  unfold mc_blockLines
  rcases hd : dictGet texMap p.2 with _ | t <;>
    simp [hd, List.filterMap_append, newmtlName_newmtl, newmtlName_mapKd,
      newmtlName_Ka3, newmtlName_Kd3, newmtlName_Ks3, newmtlName_d,
      newmtlName_illum, newmtlName_empty]

/-- Scanning the concatenated blocks for `newmtl` declarations recovers
exactly one name per block, in emission order. -/
theorem filterMap_newmtl_flatten {α} (f : α → List String) (g : α → String)
    (hf : ∀ a, (f a).filterMap newmtlName = [g a]) :
    ∀ l : List α, ((l.map f).flatten).filterMap newmtlName = l.map g
  | [] => rfl
  | a :: l => by
    simp only [List.map_cons, List.flatten_cons, List.filterMap_append, hf a,
      filterMap_newmtl_flatten f g hf l]
    rfl

/-- The `script.py` parse loop only accumulates distinct material names. -/
theorem sc_collect_nodup :
    ∀ (ls : List String) (hm : Bool) (mats : List String), mats.Nodup →
      ∀ {res : Bool × List String}, sc_collect ls hm mats = some res → res.2.Nodup
  | [], hm, mats, hnd, res, h => by
    simp only [sc_collect, Option.some.injEq] at h
    rw [← h]
    exact hnd
  | line :: rest, hm, mats, hnd, res, h => by
    simp only [sc_collect] at h
    by_cases h1 : pyStartsWith line "mtllib" = true
    · rw [if_pos h1] at h
      exact sc_collect_nodup rest true mats hnd h
    · rw [if_neg h1] at h
      by_cases h2 : pyStartsWith line "usemtl" = true
      · rw [if_pos h2] at h
        rcases hn : sc_usemtl_name line with _ | n <;> rw [hn] at h
        · exact absurd h (by simp)
        · have h3 : sc_collect rest hm (if n ∈ mats then mats else mats ++ [n]) = some res := h
          by_cases hmem : n ∈ mats
          · rw [if_pos hmem] at h3
            exact sc_collect_nodup rest hm mats hnd h3
          · rw [if_neg hmem] at h3
            refine sc_collect_nodup rest hm (mats ++ [n]) ?_ h3
            simp [List.nodup_append, hnd, hmem]
      · rw [if_neg h2] at h
        exact sc_collect_nodup rest hm mats hnd h

instance (l : List String) : Decidable (sortedStr l) := by
  unfold sortedStr
  exact List.decidableSorted l

/-! ## Claim theorems: material file and missing report (C3, C4) -/

/-- C3: counterexample.  `mtl_creator.py` iterates the Python set
`materials_in_obj` directly (line 109); its iteration order is
unspecified (hash-dependent, varying across runs).  Under the legal
enumeration ((B,b),(A,a)) of the set parsed from `usemtl B`/`usemtl A`,
the `newmtl` blocks are emitted B before A, which is not sorted by raw
material name, so the claimed sorted deterministic order is false. -/
theorem C3_counterexample :
    objMaterialPairs ["usemtl B\n", "usemtl A\n"] = some [("B", "b"), ("A", "a")] ∧
    validSetOrder [("B", "b"), ("A", "a")] [("B", "b"), ("A", "a")] ∧
    (mc_mtlLines [] (fun t => t) [("B", "b"), ("A", "a")]).filterMap newmtlName
      = ["B", "A"] ∧
    ¬ sortedStr ["B", "A"] := by
  refine ⟨by decide, List.Perm.refl _, by decide, by decide⟩

/-- C3 (amended): in `script.py` the material blocks are emitted sorted
by raw material name, one block per distinct `usemtl` material, and the
output is independent of the set-enumeration order (so repeated runs
are byte-identical); in `mtl_creator.py` each distinct material also
yields exactly one `newmtl` block, but in the unspecified set-iteration
order, with no sortedness guarantee. -/
theorem C3_blocks_sorted_unique (idx : List (String × String))
    (rs : String → List (String × String)) (lines : List String)
    (hmF : Bool) (mats : List String)
    (h : scriptParseObj lines = some (hmF, mats)) :
    (scriptMtlLines idx rs mats).filterMap newmtlName = sortStrings mats ∧
    sortedStr (sortStrings mats) ∧
    (sortStrings mats).Perm mats ∧
    mats.Nodup ∧
    (∀ mats2, mats.Perm mats2 → scriptMtlLines idx rs mats2 = scriptMtlLines idx rs mats) ∧
    (∀ (texMap : List (String × String)) (rel : String → String)
        (order : List (String × String)),
      (mc_mtlLines texMap rel order).filterMap newmtlName = order.map Prod.fst) := by
  refine ⟨?_, sortStrings_sorted mats, sortStrings_perm mats, ?_, ?_, ?_⟩
  · unfold scriptMtlLines
    rw [filterMap_newmtl_flatten (scriptBlockLines idx rs) id
      (filterMap_newmtl_scriptBlock idx rs) (sortStrings mats), List.map_id]
  · exact sc_collect_nodup lines false [] List.nodup_nil h
  · intro mats2 hp
    unfold scriptMtlLines
    rw [sortStrings_congr_perm hp.symm]
  · intro texMap rel order
    unfold mc_mtlLines
    exact filterMap_newmtl_flatten (mc_blockLines texMap rel) Prod.fst
      (filterMap_newmtl_mcBlock texMap rel) order

theorem C3_blocks_sorted_unique_witness :
    (scriptMtlLines [] (fun _ => []) ["B", "A"]).filterMap newmtlName
        = sortStrings ["B", "A"] ∧
    sortedStr (sortStrings ["B", "A"]) ∧
    (sortStrings ["B", "A"]).Perm ["B", "A"] ∧
    (["B", "A"] : List String).Nodup ∧
    scriptMtlLines [] (fun _ => []) ["A", "B"] = scriptMtlLines [] (fun _ => []) ["B", "A"] ∧
    (mc_mtlLines [] (fun t => t) [("B", "b")]).filterMap newmtlName
        = [("B", "b")].map Prod.fst := by
  have h := C3_blocks_sorted_unique [] (fun _ => []) ["usemtl B\n", "usemtl A\n"]
    false ["B", "A"] (by decide)
  exact ⟨h.1, h.2.1, h.2.2.1, h.2.2.2.1,
    h.2.2.2.2.1 ["A", "B"] (by decide), h.2.2.2.2.2 [] (fun t => t) [("B", "b")]⟩

/-- C4: counterexample.  `mtl_creator.py` writes the missing-textures
report in raw set-iteration order (lines 153–156), not sorted: under
the legal enumeration ((B,b),(A,a)) with an empty texture map the
report lines are B then A, refuting the claimed sorted order. -/
theorem C4_counterexample :
    objMaterialPairs ["usemtl B\n", "usemtl A\n"] = some [("B", "b"), ("A", "a")] ∧
    validSetOrder [("B", "b"), ("A", "a")] [("B", "b"), ("A", "a")] ∧
    mc_missingReport [] [("B", "b"), ("A", "a")] = some ["B", "A"] ∧
    ¬ sortedStr ["B", "A"] := by
  refine ⟨by decide, List.Perm.refl _, by decide, by decide⟩

/-- C4 (amended): in `script.py` the missing-materials report holds
exactly the materials whose resolved binding has no diffuse texture
path, each exactly once, sorted, and the report file exists only when
this set is non-empty; in `mtl_creator.py` the same exactness and the
non-empty gating hold, but the lines are written in set-iteration
order, not sorted. -/
theorem C4_missing_report (idx : List (String × String))
    (rs : String → List (String × String)) (mats : List String) (h : mats.Nodup) :
    sortedStr (sortStrings (scriptMissing idx rs mats)) ∧
    (sortStrings (scriptMissing idx rs mats)).Nodup ∧
    (∀ m, m ∈ sortStrings (scriptMissing idx rs mats) ↔
      m ∈ mats ∧
        (scriptDiffusePath idx (rs (sc_normalize m)) (sc_normalize m)).isNone = true) ∧
    (scriptMissingReport idx rs mats = none ↔ scriptMissing idx rs mats = []) ∧
    (∀ (texMap order), mc_missingReport texMap order = none ↔
      mc_missing texMap order = []) := by
  refine ⟨sortStrings_sorted _, ?_, ?_, ?_, ?_⟩
  · exact nodup_sortStrings ((nodup_sortStrings h).filter _)
  · intro m
    unfold scriptMissing
    rw [mem_sortStrings, List.mem_filter, mem_sortStrings]
  · by_cases he : scriptMissing idx rs mats = [] <;> simp [scriptMissingReport, he]
  · intro texMap order
    by_cases he : mc_missing texMap order = [] <;> simp [mc_missingReport, he]

theorem C4_missing_report_witness :
    sortedStr (sortStrings (scriptMissing [] (fun _ => []) ["B", "A"])) ∧
    (sortStrings (scriptMissing [] (fun _ => []) ["B", "A"])).Nodup ∧
    (("A" : String) ∈ sortStrings (scriptMissing [] (fun _ => []) ["B", "A"]) ↔
      ("A" : String) ∈ ["B", "A"] ∧
        (scriptDiffusePath [] ((fun _ => []) (sc_normalize "A"))
          (sc_normalize "A")).isNone = true) ∧
    (scriptMissingReport [] (fun _ => []) ["B", "A"] = none ↔
      scriptMissing [] (fun _ => []) ["B", "A"] = []) ∧
    (mc_missingReport [] [("B", "b")] = none ↔ mc_missing [] [("B", "b")] = []) := by
  have h := C4_missing_report [] (fun _ => []) ["B", "A"] (by decide)
  exact ⟨h.1, h.2.1, h.2.2.1 "A", h.2.2.2.1, h.2.2.2.2 [] [("B", "b")]⟩

/-! ## Lemmas for the props-file key extraction (C9) -/

theorem takeWhile_all {p : Char → Bool} :
    ∀ {xs : List Char}, (∀ x ∈ xs, p x = true) → xs.takeWhile p = xs
  | [], _ => rfl
  | x :: xs, h => by
    have hx : p x = true := h x (List.mem_cons_self x xs)
    simp only [List.takeWhile_cons, hx, if_true]
    rw [takeWhile_all (fun a ha => h a (List.mem_cons_of_mem x ha))]

theorem takeWhile_append_all {p : Char → Bool} :
    ∀ {xs : List Char} (ys : List Char), (∀ x ∈ xs, p x = true) →
      (xs ++ ys).takeWhile p = xs ++ ys.takeWhile p
  | [], ys, _ => rfl
  | x :: xs, ys, h => by
    have hx : p x = true := h x (List.mem_cons_self x xs)
    simp only [List.cons_append, List.takeWhile_cons, hx, if_true]
    rw [takeWhile_append_all ys (fun a ha => h a (List.mem_cons_of_mem x ha))]

theorem takeWhile_append_stop {p : Char → Bool} :
    ∀ {xs : List Char} (ys : List Char), (∃ x ∈ xs, p x = false) →
      (xs ++ ys).takeWhile p = xs.takeWhile p
  | [], _, h => absurd h (by simp)
  | x :: xs, ys, h => by
    rcases hx : p x with _ | _
    · simp [List.takeWhile_cons, hx]
    · simp only [List.cons_append, List.takeWhile_cons, hx, if_true]
      rcases h with ⟨y, hy, hpy⟩
      rcases List.mem_cons.mp hy with rfl | hy2
      · rw [hx] at hpy
        exact absurd hpy (by simp)
      · rw [takeWhile_append_stop ys ⟨y, hy2, hpy⟩]

theorem splitDot_ne_nil : ∀ (l : List Char), splitDotChars l ≠ []
  | [] => by simp [splitDotChars]
  | c :: cs => by
    simp only [splitDotChars]
    rcases h : splitDotChars cs with _ | ⟨s, ss⟩
    · simp
    · by_cases hc : c = '.' <;> simp [hc]

theorem splitDot_no_dot : ∀ {l : List Char}, ('.' ∈ l → False) → splitDotChars l = [l]
  | [], _ => rfl
  | c :: cs, h => by
    simp only [splitDotChars,
      splitDot_no_dot (fun hm => h (List.mem_cons_of_mem c hm))]
    rw [if_neg (fun hc => h (by subst hc; exact List.mem_cons_self _ _))]

theorem splitDot_dot_len : ∀ {l : List Char}, '.' ∈ l → 2 ≤ (splitDotChars l).length
  | [], h => absurd h (by simp)
  | c :: cs, h => by
    simp only [splitDotChars]
    rcases hs : splitDotChars cs with _ | ⟨s, ss⟩
    · exact absurd hs (splitDot_ne_nil cs)
    · by_cases hc : c = '.'
      · simp [hc]
      · simp only [if_neg hc, List.length_cons]
        rcases List.mem_cons.mp h with h1 | h1
        · exact absurd h1.symm hc
        · have h2 := splitDot_dot_len h1
          rw [hs] at h2
          simpa using h2

/-- The last field of the dot split is the suffix after the last dot. -/
theorem splitDot_getLast : ∀ (l : List Char),
    (splitDotChars l).getLastD []
      = (l.reverse.takeWhile (fun c => c != '.')).reverse
  | [] => rfl
  | c :: cs => by
    simp only [splitDotChars]
    rcases hs : splitDotChars cs with _ | ⟨s, ss⟩
    · exact absurd hs (splitDot_ne_nil cs)
    · have IH := splitDot_getLast cs
      rw [hs] at IH
      by_cases hc : c = '.'
      · subst hc
        show (([] : List Char) :: s :: ss).getLastD []
          = (List.takeWhile (fun x => x != '.') (('.' :: cs).reverse)).reverse
        rw [List.getLastD_cons, IH, List.reverse_cons]
        by_cases hd : ∃ x ∈ cs.reverse, (x != '.') = false
        · rw [takeWhile_append_stop _ hd]
        · have hall : ∀ x ∈ cs.reverse, (x != '.') = true := by
            intro x hx
            rcases hv : (x != '.') with _ | _
            · exact absurd ⟨x, hx, hv⟩ hd
            · rfl
          rw [takeWhile_append_all _ hall, takeWhile_all hall,
            show List.takeWhile (fun c => c != '.') ['.'] = [] from rfl,
            List.append_nil]
      · show (if c = '.' then ([] : List Char) :: s :: ss else (c :: s) :: ss).getLastD []
          = (List.takeWhile (fun x => x != '.') ((c :: cs).reverse)).reverse
        rw [if_neg hc, List.reverse_cons]
        rcases ss with _ | ⟨s2, ss2⟩
        · have hnd : '.' ∈ cs → False := by
            intro hdot
            have h2 := splitDot_dot_len hdot
            rw [hs] at h2
            simp at h2
          have hcs : s = cs := by
            have h2 := splitDot_no_dot hnd
            rw [hs] at h2
            simpa using h2
          have hall : ∀ x ∈ cs.reverse, (x != '.') = true := by
            intro x hx
            rcases hv : (x != '.') with _ | _
            · exfalso
              apply hnd
              have hx2 : x = '.' := by simpa using hv
              rw [← hx2]
              exact List.mem_reverse.mp hx
            · rfl
          have hpc : (c != '.') = true := by simp [hc]
          rw [takeWhile_append_all _ hall]
          simp [List.takeWhile_cons, hpc, hcs, List.reverse_append, List.getLastD_cons]
        · have hdot : '.' ∈ cs := by
            by_contra hnd
            have h2 := splitDot_no_dot (fun hm => hnd hm)
            rw [hs] at h2
            injection h2 with _ h3
            exact absurd h3 (by simp)
          have hstop : ∃ x ∈ cs.reverse, (x != '.') = false :=
            ⟨'.', List.mem_reverse.mpr hdot, by simp⟩
          rw [takeWhile_append_stop _ hstop, ← IH]
          simp [List.getLastD_cons]

/-! ## Claim theorems: props-file texture key (C9) -/

/-- C9: counterexample.  For the property line `Skins=Texture'Pack.Rock'`
the code stores the key `Rock` — the segment AFTER the last `.` of the
embedded reference — while the claim's "final path segment before the
last `.`" is `Pack`; the two differ, so the claim as stated is false. -/
theorem C9_counterexample :
    parse_props_lines [propsLine] = [("Skins", "Rock")] ∧
    segmentBeforeLastDot "Pack.Rock" = "Pack" ∧
    ¬ (("Rock" : String) = "Pack") := by
  refine ⟨by decide, by decide, by decide⟩

/-- C9 (amended): the texture key `parse_props_file` extracts from an
embedded `Texture` reference is the substring after the last `.` of
that reference (the whole reference when it contains no `.`): the
`split(".")[-1]` computation equals taking the maximal dot-free suffix. -/
theorem C9_key_after_last_dot (ref : String) :
    extractKey ref = afterLastDot ref := by
  unfold extractKey afterLastDot
  rw [splitDot_getLast ref.data]
